/-
Verification of the nuuslees runtime core against its specification.

This file shallowly embeds the parts of the program that the checked
properties speak about:

  * `src/db.rs`        — the storage gateway (Group / Feed / FeedItem rows,
                         upserts keyed on unique columns, listing queries)
                         and `Database::refresh_feeds`, the synchronizer.
  * `src/app.rs`       — the root action dispatch loop (queue drain order,
                         root-level effects, the article-extraction bridge).
  * `src/action.rs`    — the Action vocabulary.
  * `src/mode.rs`      — the Mode state machine.
  * `src/components/*` — the tab manager (`tab_viewer.rs`, `tab_bar.rs`) and
                         the per-tab components (`group_view.rs`,
                         `feed_view.rs`, `article_view.rs`,
                         `article_list.rs`, `article_reader.rs`,
                         `reader.rs`).

External collaborators (the network, the RSS wire parser, the HTML document
parser, the RFC-3339 date parser, the system clock, the terminal driver) are
modelled as explicit oracle parameters, matching the specification's stance
that they are interfaces only.  SQLite semantics relevant to the embedded
queries (ON CONFLICT DO UPDATE, `last_insert_rowid` being updated only by an
actual insertion, AUTOINCREMENT handing out fresh increasing rowids) are
embedded explicitly in the state-passing model.

Machine integers: row ids are `i32` in the source; the embedding uses `Int`
(no arithmetic close to overflow occurs in any embedded operation — ids only
ever increment by one from 1, and -1/0 are sentinels).  Timestamps are
abstracted to `Nat` instants; their RFC-3339 rendering/parsing is external.
-/

import Mathlib

set_option linter.unusedVariables false

namespace Nuuslees

/-- Decidable equality for `Except` results (used by the executable closed
checks). -/
instance instDecEqExcept {ε α : Type} [DecidableEq ε] [DecidableEq α] :
    DecidableEq (Except ε α) := fun a b =>
  match a, b with
  | .ok a, .ok b => decidable_of_iff (a = b) (by simp)
  | .ok _, .error _ => .isFalse (by simp)
  | .error _, .ok _ => .isFalse (by simp)
  | .error a, .error b => decidable_of_iff (a = b) (by simp)

/-! # Data model (`src/db.rs`) -/

/-- A `groups` row (`Group` in `db.rs`): id, unique name, description. -/
structure Group where
  id : Int
  name : String
  desc : String
  deriving DecidableEq, Repr

/-- A `feeds` row (`Feed` in `db.rs`).  `updated_at` is a timestamp instant. -/
structure Feed where
  id : Int
  group_id : Int
  name : String
  desc : String
  url : String
  updated_at : Nat
  deriving DecidableEq, Repr

/-- A `feed_items` row (`FeedItem` in `db.rs`). -/
structure FeedItem where
  id : Int
  feed_id : Int
  title : String
  url : String
  desc : String
  content : String
  read : Bool
  pub_date : Nat
  deriving DecidableEq, Repr

/-- The persistent state behind one open SQLite connection: the three tables
(in rowid order, which is insertion order — every embedded query scans in
this order), the next AUTOINCREMENT id per table, and the connection's
`last_insert_rowid` register, which SQLite updates only when an INSERT
actually inserts a row (the DO-UPDATE conflict path leaves it untouched).
A freshly opened connection has `last_insert_rowid = 0`. -/
structure DbState where
  groups : List Group
  feeds : List Feed
  feed_items : List FeedItem
  nextGroupId : Int
  nextFeedId : Int
  nextItemId : Int
  lastInsertRowid : Int
  deriving DecidableEq, Repr

/-- The state of a freshly created database (`Database::init` on an empty
file): empty tables, AUTOINCREMENT counters at 1, fresh connection. -/
def DbState.empty : DbState :=
  { groups := [], feeds := [], feed_items := []
    nextGroupId := 1, nextFeedId := 1, nextItemId := 1
    lastInsertRowid := 0 }

/-- `Database::upsert_group`: `INSERT INTO groups (name, desc) VALUES (…)
ON CONFLICT(name) DO UPDATE SET desc=excluded.desc`, then return
`last_insert_rowid()`.  On the conflict path no row is inserted, so the
returned value is the stale register, not the conflicting row's id. -/
def upsertGroup (g : Group) (db : DbState) : Int × DbState :=
  if db.groups.any (fun r => r.name == g.name) then
    let groups := db.groups.map (fun r =>
      if r.name == g.name then { r with desc := g.desc } else r)
    (db.lastInsertRowid, { db with groups := groups })
  else
    let id := db.nextGroupId
    (id, { db with
      groups := db.groups ++ [{ g with id := id }]
      nextGroupId := id + 1
      lastInsertRowid := id })

/-- `Database::upsert_feed`: insert keyed on unique `url`; the conflict path
updates `name`, `desc` and `updated_at` (not `group_id`), inserts nothing,
and the function returns `last_insert_rowid()`. -/
def upsertFeed (f : Feed) (db : DbState) : Int × DbState :=
  if db.feeds.any (fun r => r.url == f.url) then
    let feeds := db.feeds.map (fun r =>
      if r.url == f.url then
        { r with name := f.name, desc := f.desc, updated_at := f.updated_at }
      else r)
    (db.lastInsertRowid, { db with feeds := feeds })
  else
    let id := db.nextFeedId
    (id, { db with
      feeds := db.feeds ++ [{ f with id := id }]
      nextFeedId := id + 1
      lastInsertRowid := id })

/-- `Database::upsert_feed_item`: insert keyed on unique `url`; the conflict
path updates `title`, `desc`, `content`, `read` and `pub_date` (not
`feed_id`); returns `last_insert_rowid()`. -/
def upsertFeedItem (it : FeedItem) (db : DbState) : Int × DbState :=
  if db.feed_items.any (fun r => r.url == it.url) then
    let items := db.feed_items.map (fun r =>
      if r.url == it.url then
        { r with title := it.title, desc := it.desc, content := it.content
                 read := it.read, pub_date := it.pub_date }
      else r)
    (db.lastInsertRowid, { db with feed_items := items })
  else
    let id := db.nextItemId
    (id, { db with
      feed_items := db.feed_items ++ [{ it with id := id }]
      nextItemId := id + 1
      lastInsertRowid := id })

/-- The synthetic aggregate row prepended by `Database::get_groups`. -/
def allFeedsGroup : Group :=
  { id := -1, name := "All Feeds", desc := "See all feeds in all groups" }

/-- `Database::get_groups`: `SELECT * FROM groups`, prepending the synthetic
"All Feeds" group.  The table scan yields rows in insertion order. -/
def getGroups (db : DbState) : List Group :=
  allFeedsGroup :: db.groups

/-- `Database::get_group_id`: first id of a group with the given name, −1
when absent. -/
def getGroupId (db : DbState) (groupName : String) : Int :=
  match db.groups.find? (fun g => g.name == groupName) with
  | some g => g.id
  | none => -1

/-- `Database::get_feeds`: all feed rows. -/
def getFeeds (db : DbState) : List Feed :=
  db.feeds

/-- The synthetic aggregate feed prepended by `Database::get_feeds_from_group`;
its `updated_at` is `Utc::now()` at query time. -/
def allFeedsFeed (group_id : Int) (now : Nat) : Feed :=
  { id := -1, group_id := group_id, name := "All Feeds"
    desc := "See all feeds in this group", url := "", updated_at := now }

/-- `Database::get_feeds_from_group`: feeds with the given `group_id`,
prefixed by the synthetic "All Feeds" feed. -/
def getFeedsFromGroup (db : DbState) (group_id : Int) (now : Nat) : List Feed :=
  allFeedsFeed group_id now :: db.feeds.filter (fun f => f.group_id == group_id)

/-- `Database::get_feed_items`: all item rows; the row mapper substitutes
`""` for the stored `content` column. -/
def getFeedItems (db : DbState) : List FeedItem :=
  db.feed_items.map (fun it => { it with content := "" })

/-- `Database::get_feed_items_from_feed`: item rows with the given `feed_id`;
the row mapper blanks `content`. -/
def getFeedItemsFromFeed (db : DbState) (feed_id : Int) : List FeedItem :=
  (db.feed_items.filter (fun it => it.feed_id == feed_id)).map
    (fun it => { it with content := "" })

/-- `Database::get_feed_items_from_group`: join of `feed_items` with `feeds`
on `feed_id = feeds.id` restricted to `feeds.group_id = ?`; one output row
per matching pair, `content` blanked by the row mapper. -/
def getFeedItemsFromGroup (db : DbState) (group_id : Int) : List FeedItem :=
  db.feed_items.flatMap (fun it =>
    (db.feeds.filter (fun f => f.id == it.feed_id && f.group_id == group_id)).map
      (fun _ => { it with content := "" }))

/-! # Configuration (`src/config.rs`) -/

/-- A configured feed (`FeedConfig`): optional name/description, required
link. -/
structure FeedConfig where
  name : Option String
  desc : Option String
  link : String
  deriving DecidableEq, Repr

/-- A configured group (`GroupConfig`). -/
structure GroupConfig where
  name : String
  desc : String
  feeds : List FeedConfig
  deriving DecidableEq, Repr

/-- The loaded configuration (`Config`): confirm-before-quit flag and the
group definitions (directory fields omitted — path handling is external). -/
structure Config where
  confirm_quit : Bool
  groups : List GroupConfig
  deriving DecidableEq, Repr

/-! # RSS documents (output of the external wire parser) -/

/-- One `<item>` of a fetched document, as exposed by the external RSS
parser: each accessor used by `refresh_feeds` returns an `Option`. -/
structure RssItem where
  title : Option String
  link : Option String
  description : Option String
  pubDate : Option String
  deriving DecidableEq, Repr

/-- A fetched `rss::Channel`: title, description and items. -/
structure Channel where
  title : String
  description : String
  items : List RssItem
  deriving DecidableEq, Repr

/-- The external collaborators `refresh_feeds` consumes: the network fetch
composed with the RSS parse (`client.get(..).send().await?.text().await?`
then `Channel::read_from(..)?` — both failure points propagate identically,
so they are one oracle), the RFC-3339 date parser, and the clock. -/
structure SyncEnv where
  fetch : String → Except Unit Channel
  parseDate : String → Option Nat
  now : Nat

/-! # The synchronizer (`Database::refresh_feeds`) -/

/-- The `FeedItem` built from one channel entry inside `refresh_feeds`:
missing title/link/description default to `""`, `content` starts empty,
`read` false, and a missing or unparseable publish date falls back to the
current time. -/
def mkFeedItem (env : SyncEnv) (feedId : Int) (item : RssItem) : FeedItem :=
  { id := 0
    feed_id := feedId
    title := item.title.getD ""
    url := item.link.getD ""
    desc := item.description.getD ""
    content := ""
    read := false
    pub_date := (env.parseDate (item.pubDate.getD "")).getD env.now }

/-- The inner item loop of `refresh_feeds`: upsert every channel entry
(upsert errors are logged and skipped; SQL-level failures are outside the
model, so the `Ok` arm is always taken). -/
def upsertChannelItems (env : SyncEnv) (feedId : Int) (items : List RssItem)
    (db : DbState) : DbState :=
  items.foldl (fun db item => (upsertFeedItem (mkFeedItem env feedId item) db).2) db

/-- Processing of one configured feed inside `refresh_feeds`: fetch and parse
the remote document — a failure of either propagates via `?`, aborting the
whole `refresh_feeds` call (mutations already applied persist on the
connection) — then upsert the `Feed` row (name/description falling back to
the channel's own) and all its items. -/
def refreshFeed (env : SyncEnv) (groupId : Int) (fc : FeedConfig)
    (db : DbState) : Except Unit DbState :=
  match env.fetch fc.link with
  | .error e => .error e
  | .ok channel =>
    let newFeed : Feed :=
      { id := 0
        group_id := groupId
        name := fc.name.getD channel.title
        desc := fc.desc.getD channel.description
        url := fc.link
        updated_at := env.now }
    let r := upsertFeed newFeed db
    .ok (upsertChannelItems env r.1 channel.items r.2)

/-- The feed loop of one group: process feeds in order; the first fetch/parse
failure aborts, returning the state mutated so far together with the error. -/
def refreshGroupFeeds (env : SyncEnv) (groupId : Int) :
    List FeedConfig → DbState → DbState × Except Unit Unit
  | [], db => (db, .ok ())
  | fc :: rest, db =>
    match refreshFeed env groupId fc db with
    | .error e => (db, .error e)
    | .ok db => refreshGroupFeeds env groupId rest db

/-- The group loop of `refresh_feeds`: upsert the `Group` row (a SQL-level
upsert failure would skip the group; SQL failures are outside the model) and
process its feeds; a fetch/parse error propagates past all later groups. -/
def refreshGroups (env : SyncEnv) :
    List GroupConfig → DbState → DbState × Except Unit Unit
  | [], db => (db, .ok ())
  | gc :: rest, db =>
    let r := upsertGroup { id := 0, name := gc.name, desc := gc.desc } db
    let rf := refreshGroupFeeds env r.1 gc.feeds r.2
    match rf.2 with
    | .error e => (rf.1, .error e)
    | .ok () => refreshGroups env rest rf.1

/-- `Database::refresh_feeds` with a configuration set: walk the configured
groups, upserting rows into the connection's state; the result carries the
final connection state (mutations persist even on error) and the returned
`Result`. -/
def refreshFeeds (env : SyncEnv) (cfg : Config) (db : DbState) :
    DbState × Except Unit Unit :=
  refreshGroups env cfg.groups db

/-- `Database::refresh_feeds` as callable on the struct, whose `config` field
is an `Option`: with no configuration it only logs and returns `Ok`. -/
def refreshFeedsOpt (env : SyncEnv) (cfg : Option Config) (db : DbState) :
    DbState × Except Unit Unit :=
  match cfg with
  | some cfg => refreshFeeds env cfg db
  | none => (db, .ok ())

/-! # Mode (`src/mode.rs`) -/

/-- The navigation mode.  `main` is the initial mode named by
`tab_viewer.rs` (`Mode::Main`); it is absent from the `mode.rs` in the tree
(a mid-refactor artefact) and is included here so `TabViewer::new` can be
embedded as written. -/
inductive Mode where
  | groupView
  | feedList
  | viewArticles (items : List FeedItem)
  | refreshing
  | main
  deriving DecidableEq, Repr

instance : Inhabited Mode := ⟨.groupView⟩

/-! # Terminal events (external driver vocabulary, `crossterm`) -/

/-- The key codes the embedded handlers distinguish. -/
inductive KeyCode where
  | char (c : Char)
  | down
  | up
  | enter
  | other
  deriving DecidableEq, Repr

/-- The mouse event kinds the embedded handlers distinguish. -/
inductive MouseKind where
  | scrollUp
  | scrollDown
  | other
  deriving DecidableEq, Repr

/-! # Actions (`src/action.rs`) -/

/-- The Action vocabulary of `action.rs` (the message set routed through the
queue by the tab manager and the per-tab components). -/
inductive Action where
  | tick
  | render
  | resize (w h : Nat)
  | suspend
  | resume
  | confirmQuit
  | quit
  | changeTab (i : Nat)
  | removeTab (i : Nat)
  | requestRefresh
  | refresh (gs : List Group)
  | newTabFeedView (g : Group)
  | newTabArticleViewAll
  | newTabArticleViewGroup (g : Group)
  | newTabArticleViewFeed (f : Feed)
  | requestUpdateFeedView (i : Nat) (g : Group)
  | requestUpdateArticleViewAll (i : Nat)
  | requestUpdateArticleViewGroup (i : Nat) (g : Group)
  | requestUpdateArticleViewFeed (i : Nat) (f : Feed)
  | updateFeedView (i : Nat) (fs : List Feed)
  | updateArticleView (i : Nat) (its : List FeedItem)
  | modeChange (m : Mode)
  | requestUpdateReader (i : Nat) (it : FeedItem)
  | updateReader (i : Nat) (content : String)
  | activateReader
  | activateFeedList
  | error (msg : String)
  | help
  deriving DecidableEq, Repr

/-- The action vocabulary as matched by `app.rs`, `reader.rs` and
`article_list.rs` (these files predate the indexed `action.rs` variants:
there `RequestUpdateReader` carries a `FeedItem`, `UpdateReader` carries
only the content string, and the activation toggles carry no index). -/
inductive AppAction where
  | tick
  | render
  | resize (w h : Nat)
  | suspend
  | resume
  | quit
  | changeToFeedView (g : Group)
  | refresh (gs : List Group)
  | requestUpdateReader (it : FeedItem)
  | updateReader (content : String)
  | modeChange (m : Mode)
  | activateReader
  | activateFeedList
  | error (msg : String)
  deriving DecidableEq, Repr

/-! # HTML-to-styled-text walk (`reader.rs` / `article_reader.rs`) -/

/-- A parsed HTML DOM node as consumed by `walk_dom_recursive` (the parse
itself, `html5ever::parse_document`, is an external collaborator made an
oracle below). -/
inductive DomNode where
  | document (children : List DomNode)
  | textNode (s : String)
  | element (tag : String) (children : List DomNode)
  | other

/-- The style a span can carry after the walk. -/
inductive SpanStyle where
  | plain
  | bold
  | link
  deriving DecidableEq, Repr

/-- A styled text run. -/
structure TextSpan where
  text : String
  style : SpanStyle
  deriving DecidableEq, Repr

/-- The rendered text: lines of styled spans. -/
structure RText where
  lines : List (List TextSpan)
  deriving DecidableEq, Repr

/-- Flush the pending spans into a line when nonempty (the
`if !spans.is_empty()` push in the `"p"` arm). -/
def flushSpans (t : RText) (sp : List TextSpan) : RText × List TextSpan :=
  if sp.isEmpty then (t, sp) else ({ lines := t.lines ++ [sp] }, [])

mutual

/-- `walk_dom_recursive`: threads the accumulated text and the pending span
buffer through the DOM.  `"p"` flushes around its children and appends an
empty line; `"h1"/"h2"/"h3"` and `"a"` walk each child into a fresh buffer,
restyle it (bold / link colour) and append it to the pending buffer; other
elements and the document recurse; text nodes push a raw span. -/
def walkNode : DomNode → RText → List TextSpan → RText × List TextSpan
  | .document cs, t, sp => walkNodes cs t sp
  | .textNode s, t, sp => (t, sp ++ [{ text := s, style := .plain }])
  | .element tag cs, t, sp =>
    if tag = "p" then
      let (t, sp) := flushSpans t sp
      let (t, sp) := walkNodes cs t sp
      let (t, sp) := flushSpans t sp
      ({ lines := t.lines ++ [[]] }, sp)
    else if tag = "h1" ∨ tag = "h2" ∨ tag = "h3" then
      walkStyled .bold cs t sp
    else if tag = "a" then
      walkStyled .link cs t sp
    else
      walkNodes cs t sp
  | .other, t, sp => (t, sp)

/-- The per-child restyling loop of the `"h1"`/`"h2"`/`"h3"` and `"a"` arms:
each child is walked into a fresh span buffer whose spans are then restyled
and extended onto the pending buffer. -/
def walkStyled (style : SpanStyle) :
    List DomNode → RText → List TextSpan → RText × List TextSpan
  | [], t, sp => (t, sp)
  | c :: cs, t, sp =>
    let (t, styled) := walkNode c t []
    walkStyled style cs t (sp ++ styled.map (fun s => { s with style := style }))

/-- Walking a list of children in order. -/
def walkNodes : List DomNode → RText → List TextSpan → RText × List TextSpan
  | [], t, sp => (t, sp)
  | c :: cs, t, sp =>
    let (t, sp) := walkNode c t sp
    walkNodes cs t sp

end

/-- `walk_dom`: run the recursive walk from an empty text and empty buffer,
returning the accumulated text. -/
def walkDom (root : DomNode) : RText :=
  (walkNode root { lines := [] } []).1

/-- `build_text` applied to a content string: parse the document with the
external HTML parser (oracle `parseDom`) and walk the resulting DOM. -/
def buildText (parseDom : String → DomNode) (content : String) : RText :=
  walkDom (parseDom content)

/-! # Component states and transition functions (`src/components/*`)

`command_tx` handles are not stored: a component's sends through its handle
are returned as an explicit list of emitted actions.  A handler that can hit
a Rust panic (`unwrap()` on `None`, `% 0`, `usize` underflow) is embedded as
an `Option`-valued function whose `none` marks the panic. -/

/-- `Config::default()` (Rust's derived `Default`): `confirm_quit` false,
no groups. -/
def Config.default : Config := { confirm_quit := false, groups := [] }

/-- `GroupView` (`group_view.rs`): the groups tab's list component. -/
structure GroupViewState where
  config : Config
  mode : Mode
  idx : Nat
  selected_idx : Nat
  groups : List Group
  state_selected : Option Nat
  deriving DecidableEq, Repr

/-- `GroupView::new`: empty list, selection at 0, tab index 0. -/
def GroupView.new : GroupViewState :=
  { config := Config.default, mode := .groupView, idx := 0, selected_idx := 0
    groups := [], state_selected := some 0 }

/-- `GroupView::handle_key_events`.  Guarded by the active-tab check; `none`
marks a panic: `(i+1) % len` divides by zero on an empty list for j/Down,
`len - 1` underflows on an empty list for k/Up when the selection is 0 (a
panic under the default debug profile), and the l/Enter arm `unwrap`s the
selection and the indexed element. -/
def GroupView.handleKeyEvents (s : GroupViewState) (key : KeyCode) :
    Option (GroupViewState × List Action) :=
  if s.selected_idx == s.idx then
    let selectedItemIdx := s.state_selected.getD 0
    if key == .char 'j' || key == .down then
      if s.groups.length == 0 then none
      else some ({ s with state_selected := some ((selectedItemIdx + 1) % s.groups.length) }, [])
    else if key == .char 'k' || key == .up then
      if selectedItemIdx == 0 then
        if s.groups.length == 0 then none
        else some ({ s with state_selected := some (s.groups.length - 1) }, [])
      else some ({ s with state_selected := some (selectedItemIdx - 1) }, [])
    else if key == .char 'l' || key == .enter then
      match s.state_selected with
      | none => none
      | some sel =>
        match s.groups.get? sel with
        | none => none
        | some g =>
          if g.id == -1 then some (s, [.newTabArticleViewAll])
          else some (s, [.newTabFeedView g])
    else some (s, [])
  else some (s, [])

/-- `GroupView::handle_mouse_events` (not guarded by the active-tab check);
`none` marks the same empty-list panics. -/
def GroupView.handleMouseEvents (s : GroupViewState) (mouse : MouseKind) :
    Option (GroupViewState × List Action) :=
  let selectedIdx := s.state_selected.getD 0
  if mouse == .scrollUp then
    if s.groups.length == 0 then none
    else some ({ s with state_selected := some ((selectedIdx + 1) % s.groups.length) }, [])
  else if mouse == .scrollDown then
    if selectedIdx == 0 then
      if s.groups.length == 0 then none
      else some ({ s with state_selected := some (s.groups.length - 1) }, [])
    else some ({ s with state_selected := some (selectedIdx - 1) }, [])
  else some (s, [])

/-- `GroupView::update`: store a `Refresh` payload, follow tab changes and
mode changes. -/
def GroupView.update (s : GroupViewState) (a : Action) : GroupViewState :=
  match a with
  | .refresh gs => { s with groups := gs }
  | .changeTab i => { s with selected_idx := i }
  | .modeChange m => { s with mode := m }
  | _ => s

/-- `ArticleList` (`article_list.rs`): the article list pane.  (The tree's
`article_list.rs` is the pre-refactor generation — constructed without a tab
index — while its caller `article_view.rs` expects an indexed constructor and
a `set_feed_items` method; the state below is the one of the file present.) -/
structure ArticleListState where
  config : Config
  mode : Mode
  feed_items : Option (List FeedItem)
  selected : Nat
  state_selected : Option Nat
  vertical_scroll : Nat
  active : Bool
  deriving DecidableEq, Repr

/-- `ArticleList::new`: unpopulated, selection at 0, active. -/
def ArticleList.new : ArticleListState :=
  { config := Config.default, mode := .groupView, feed_items := none
    selected := 0, state_selected := some 0, vertical_scroll := 0, active := true }

/-- `ArticleList::handle_key_events`: only acts when active and populated;
`none` marks a panic (`% 0` or `len - 1` underflow on an empty populated
list; the l/Enter arm `unwrap`s the selection and the indexed element).
The l/Enter arm requests extraction and activates the reader. -/
def ArticleList.handleKeyEvents (s : ArticleListState) (key : KeyCode) :
    Option (ArticleListState × List AppAction) :=
  if s.active then
    match s.feed_items with
    | none => some (s, [])
    | some feedItems =>
      let selectedIdx := s.state_selected.getD 0
      if key == .char 'j' || key == .down then
        if feedItems.length == 0 then none
        else some ({ s with state_selected := some ((selectedIdx + 1) % feedItems.length) }, [])
      else if key == .char 'k' || key == .up then
        if selectedIdx == 0 then
          if feedItems.length == 0 then none
          else some ({ s with state_selected := some (feedItems.length - 1) }, [])
        else some ({ s with state_selected := some (selectedIdx - 1) }, [])
      else if key == .char 'l' || key == .enter then
        match s.state_selected with
        | none => none
        | some sel =>
          match feedItems.get? sel with
          | none => none
          | some item =>
            some (s, [.requestUpdateReader item, .activateReader])
      else some (s, [])
  else some (s, [])

/-- `ArticleList::handle_mouse_events`: scrolling, only when active, in
article-view mode and populated; `none` marks the empty-list panics. -/
def ArticleList.handleMouseEvents (s : ArticleListState) (mouse : MouseKind) :
    Option (ArticleListState × List AppAction) :=
  if s.active then
    match s.mode with
    | .viewArticles _ =>
      match s.feed_items with
      | none => some (s, [])
      | some feedItems =>
        let selectedIdx := s.state_selected.getD 0
        if mouse == .scrollUp then
          if feedItems.length == 0 then none
          else some ({ s with state_selected := some ((selectedIdx + 1) % feedItems.length) }, [])
        else if mouse == .scrollDown then
          if selectedIdx == 0 then
            if feedItems.length == 0 then none
            else some ({ s with state_selected := some (feedItems.length - 1) }, [])
          else some ({ s with state_selected := some (selectedIdx - 1) }, [])
        else some (s, [])
    | _ => some (s, [])
  else some (s, [])

/-- Modelled from the spec: `ArticleList::set_feed_items`, called by
`article_view.rs` but absent from the tree's `article_list.rs` (the caller
belongs to the post-refactor generation whose list file is missing).  Per
the spec's tab contract ("created empty, populated asynchronously", with the
enclosing view applying the `UpdateArticleView` payload), it stores the
delivered items. -/
def ArticleList.setFeedItems (s : ArticleListState) (items : List FeedItem) :
    ArticleListState :=
  { s with feed_items := some items }

/-- Modelled from the spec: the post-refactor `ArticleList::update` as
forwarded to by `article_view.rs` (its file is missing from the tree).  Per
the spec, indexed payload actions are applied only by the enclosing
`ArticleView` through `set_feed_items`; the list itself reacts only to the
reader/list activation toggles, as the pre-refactor file does. -/
def ArticleList.update (s : ArticleListState) (a : Action) : ArticleListState :=
  match a with
  | .activateFeedList => { s with state_selected := some 0, active := true }
  | .activateReader => { s with state_selected := none, active := false }
  | _ => s

/-- `ArticleReader` (`article_reader.rs`): the reader pane of an article
tab, carrying its own tab index. -/
structure ArticleReaderState where
  idx : Nat
  content : Option String
  scroll_position : Nat × Nat
  text : Option RText
  active : Bool
  deriving DecidableEq, Repr

/-- `ArticleReader::new(idx)`. -/
def ArticleReader.new (idx : Nat) : ArticleReaderState :=
  { idx := idx, content := none, scroll_position := (0, 0), text := none, active := false }

/-- `ArticleReader::update`: applies an `UpdateReader` payload only when the
carried index equals its own (`self.idx == idx`), storing the content,
rebuilding the text and resetting the scroll; tracks the activation
toggles. -/
def ArticleReader.update (parseDom : String → DomNode)
    (s : ArticleReaderState) (a : Action) : ArticleReaderState :=
  match a with
  | .updateReader i c =>
    if s.idx == i then
      { s with content := some c, text := some (buildText parseDom c)
               scroll_position := (0, 0) }
    else s
  | .activateFeedList => { s with active := false }
  | .activateReader => { s with active := true }
  | _ => s

/-- `ArticleView` (`article_view.rs`): an article tab = list + reader,
carrying its own tab index. -/
structure ArticleViewState where
  idx : Nat
  selected_idx : Nat
  article_list : ArticleListState
  article_reader : ArticleReaderState
  deriving DecidableEq, Repr

/-- `ArticleView::new(idx)`: both children share the tab index (the missing
post-refactor list constructor takes it; the embedded list state does not
store it). -/
def ArticleView.new (idx : Nat) : ArticleViewState :=
  { idx := idx, selected_idx := idx
    article_list := ArticleList.new, article_reader := ArticleReader.new idx }

/-- `ArticleView::update`: forwards the action to both children, then
follows tab changes and applies an `UpdateArticleView` payload only when the
carried index equals its own. -/
def ArticleView.update (parseDom : String → DomNode)
    (s : ArticleViewState) (a : Action) : ArticleViewState :=
  let s := { s with
    article_list := ArticleList.update s.article_list a
    article_reader := ArticleReader.update parseDom s.article_reader a }
  match a with
  | .changeTab i => { s with selected_idx := i }
  | .updateArticleView i feedItems =>
    if s.idx == i then
      { s with article_list := ArticleList.setFeedItems s.article_list feedItems }
    else s
  | _ => s

/-- `FeedView` (`feed_view.rs`): a group's feed-list tab, carrying its own
tab index and group. -/
structure FeedViewState where
  config : Config
  mode : Mode
  group : Group
  idx : Nat
  selected_idx : Nat
  feeds : List Feed
  state_selected : Option Nat
  deriving DecidableEq, Repr

/-- `FeedView::new(idx, group)`. -/
def FeedView.new (idx : Nat) (group : Group) : FeedViewState :=
  { config := Config.default, mode := .groupView, group := group
    idx := idx, selected_idx := idx, feeds := [], state_selected := some 0 }

/-- `FeedView::update`: follows tab changes, decrements its own index when a
lower-indexed tab is removed, and applies an `UpdateFeedView` payload only
when the carried index equals its own. -/
def FeedView.update (s : FeedViewState) (a : Action) : FeedViewState :=
  match a with
  | .changeTab i => { s with selected_idx := i }
  | .removeTab i => if s.idx > i then { s with idx := s.idx - 1 } else s
  | .updateFeedView i feeds => if s.idx == i then { s with feeds := feeds } else s
  | _ => s

/-- `Reader` (`reader.rs`, the pre-refactor reader used by `app.rs`'s
component tree): content, scroll, rendered text, activity flag. -/
structure ReaderState where
  content : Option String
  scroll_position : Nat × Nat
  text : Option RText
  active : Bool
  deriving DecidableEq, Repr

/-- `Reader::new`. -/
def Reader.new : ReaderState :=
  { content := none, scroll_position := (0, 0), text := none, active := false }

/-- `Reader::update`: an (unindexed) `UpdateReader` stores the content and
rebuilds the text; every other action leaves the state untouched. -/
def Reader.update (parseDom : String → DomNode)
    (s : ReaderState) (a : AppAction) : ReaderState :=
  match a with
  | .updateReader c => { s with content := some c, text := some (buildText parseDom c) }
  | _ => s

/-! # Tab lifecycle manager (`tab_bar.rs`, `tab_viewer.rs`) -/

/-- `TabBar` (`tab_bar.rs`): the tab-strip widget. -/
structure TabBarState where
  tabs : List String
  selected_tab : Nat
  deriving DecidableEq, Repr

/-- `TabBar::add_tab`. -/
def TabBar.addTab (s : TabBarState) (tab : String) : TabBarState :=
  { s with tabs := s.tabs ++ [tab] }

/-- `TabBar::remove_tab`. -/
def TabBar.removeTab (s : TabBarState) (tabIdx : Nat) : TabBarState :=
  { s with tabs := s.tabs.eraseIdx tabIdx }

/-- `TabBar::select`. -/
def TabBar.select (s : TabBarState) (tabIdx : Nat) : TabBarState :=
  { s with selected_tab := tabIdx }

/-- The closed set of component kinds `TabViewer` ever stores in `tabs`
(`GroupView` at construction; `FeedView` and `ArticleView` from the NewTab
actions). -/
inductive TabComponent where
  | groupView (s : GroupViewState)
  | feedView (s : FeedViewState)
  | articleView (s : ArticleViewState)
  deriving DecidableEq, Repr

/-- Dynamic dispatch of `Component::update` over a stored tab. -/
def TabComponent.update (parseDom : String → DomNode)
    (c : TabComponent) (a : Action) : TabComponent :=
  match c with
  | .groupView s => .groupView (GroupView.update s a)
  | .feedView s => .feedView (FeedView.update s a)
  | .articleView s => .articleView (ArticleView.update parseDom s a)

/-- `TabViewer` (`tab_viewer.rs`): the tab manager. -/
structure TabViewerState where
  config : Config
  mode : Mode
  tab_bar : TabBarState
  tabs : List TabComponent
  selected_tab : Nat
  deriving DecidableEq, Repr

/-- `TabViewer::new`: one "Groups" tab holding a fresh `GroupView`,
selected. -/
def TabViewer.new : TabViewerState :=
  { config := Config.default
    mode := .main
    tab_bar := TabBar.addTab { tabs := [], selected_tab := 0 } "Groups"
    tabs := [.groupView GroupView.new]
    selected_tab := 0 }

/-- `TabViewer::add_new_tab`: append the component, select the new last
index (`tabs.len() - 1`), mirror both into the tab bar, and send a
`ChangeTab` for the new index through the action handle. -/
def TabViewer.addNewTab (s : TabViewerState) (tabName : String)
    (component : TabComponent) : TabViewerState × List Action :=
  let tabs := s.tabs ++ [component]
  let selected := tabs.length - 1
  let tab_bar := TabBar.select (TabBar.addTab s.tab_bar tabName) (tabs.length - 1)
  ({ s with tabs := tabs, selected_tab := selected, tab_bar := tab_bar },
   [.changeTab selected])

/-- `TabViewer::update`: first forward the action to every stored tab, then
handle mode changes and the four NewTab actions.  Each NewTab arm constructs
the component with self-index `tabs.len()` (its index after the append),
adds it via `add_new_tab`, and returns the follow-up data-refresh request —
three arms address it to `tabs.len() - 1`, but the
`NewTabArticleViewGroup` arm addresses it to `tabs.len()`.  The result is
(new state, actions sent through the handle, returned follow-up). -/
def TabViewer.update (parseDom : String → DomNode)
    (s : TabViewerState) (a : Action) :
    TabViewerState × List Action × Option Action :=
  let s := { s with tabs := s.tabs.map (fun c => TabComponent.update parseDom c a) }
  match a with
  | .modeChange m => ({ s with mode := m }, [], none)
  | .newTabFeedView g =>
    let feedView := FeedView.new s.tabs.length g
    let (s, sent) := TabViewer.addNewTab s g.name (.feedView feedView)
    (s, sent, some (.requestUpdateFeedView (s.tabs.length - 1) g))
  | .newTabArticleViewAll =>
    let articleView := ArticleView.new s.tabs.length
    let (s, sent) := TabViewer.addNewTab s "All Articles" (.articleView articleView)
    (s, sent, some (.requestUpdateArticleViewAll (s.tabs.length - 1)))
  | .newTabArticleViewFeed f =>
    let articleView := ArticleView.new s.tabs.length
    let (s, sent) := TabViewer.addNewTab s f.name (.articleView articleView)
    (s, sent, some (.requestUpdateArticleViewFeed (s.tabs.length - 1) f))
  | .newTabArticleViewGroup g =>
    let articleView := ArticleView.new s.tabs.length
    let (s, sent) := TabViewer.addNewTab s g.name (.articleView articleView)
    (s, sent, some (.requestUpdateArticleViewGroup s.tabs.length g))
  | _ => (s, [], none)

/-! # The action dispatch loop (`src/app.rs`) -/

/-- The root-level state `App::run` mutates while draining. -/
structure AppState where
  mode : Mode
  should_quit : Bool
  should_suspend : Bool
  last_tick_key_events : List KeyCode
  db : DbState
  deriving DecidableEq, Repr

/-- The root-level effect of one drained action in `App::run` (the `match
action` before the component broadcast), with the blocking article
extraction bridge as an oracle `extract`: on `RequestUpdateReader` the
extraction result is awaited and, only on success, an `UpdateReader`
carrying the extracted body is sent into the queue — a failure is only
logged, nothing is sent and no root state changes.  Rendering arms draw
through the external terminal driver and leave root state unchanged.
Returns the new root state and the actions sent into the queue. -/
def appApplyRoot (extract : String → Except Unit String)
    (s : AppState) (a : AppAction) : AppState × List AppAction :=
  match a with
  | .tick => ({ s with last_tick_key_events := [] }, [])
  | .quit => ({ s with should_quit := true }, [])
  | .suspend => ({ s with should_suspend := true }, [])
  | .resume => ({ s with should_suspend := false }, [])
  | .resize _ _ => (s, [])
  | .render => (s, [])
  | .changeToFeedView g =>
    let feedItems := getFeedItemsFromGroup s.db g.id
    let mode := Mode.viewArticles feedItems
    ({ s with mode := mode }, [.modeChange mode])
  | .refresh _ => (s, [])
  | .requestUpdateReader feedItem =>
    match extract feedItem.url with
    | .ok product => (s, [.updateReader product])
    | .error _ => (s, [])
  | _ => (s, [])

/-- The queue-drain loop of `App::run` (`while let Ok(action) =
action_rx.try_recv()`), abstracted over the follow-ups one action's
processing sends into the queue (root sends plus every component's update
result, in send order).  The channel is an unbounded FIFO: `try_recv` pops
the head, and everything sent while processing it is appended at the tail.
`fuel` bounds the number of iterations observed; the returned list is the
sequence of actions processed, in order. -/
def drainQueue (process : AppAction → List AppAction) :
    Nat → List AppAction → List AppAction
  | 0, _ => []
  | _, [] => []
  | fuel + 1, a :: rest => a :: drainQueue process fuel (rest ++ process a)

/-! # Auxiliary predicates -/

/-- Storage sanity: every persisted group and feed row has a positive id and
the AUTOINCREMENT counters are positive (true of a freshly initialised
database and, as proved below, preserved by synchronization) — hence the
synthetic id −1 can never collide with a persisted row. -/
def DbInv (db : DbState) : Prop :=
  (∀ g ∈ db.groups, 1 ≤ g.id) ∧ (∀ f ∈ db.feeds, 1 ≤ f.id) ∧
    1 ≤ db.nextGroupId ∧ 1 ≤ db.nextFeedId

/-- The states on which `GroupView`'s navigation handlers cannot panic: the
displayed list is nonempty and the stored selection is a valid index. -/
def GroupView.keySafe (s : GroupViewState) : Prop :=
  s.groups ≠ [] ∧ ∃ i, s.state_selected = some i ∧ i < s.groups.length

/-- The states on which `ArticleList`'s navigation handlers cannot panic:
whenever the list is populated, it is nonempty and the stored selection is a
valid index. -/
def ArticleList.keySafe (s : ArticleListState) : Prop :=
  ∀ l, s.feed_items = some l →
    l ≠ [] ∧ ∃ i, s.state_selected = some i ∧ i < l.length

/-! # Concrete instances used by the closed checks -/

/-- A three-feed configuration under one group, exercising the
partial-failure scenario of the spec. -/
def cfgThreeFeeds : Config :=
  { confirm_quit := true
    groups := [{ name := "Tech", desc := "tech news"
                 feeds := [{ name := some "F1", desc := some "D1", link := "u1" },
                           { name := some "F2", desc := some "D2", link := "u2" },
                           { name := some "F3", desc := some "D3", link := "u3" }] }] }

/-- A two-item remote document. -/
def chanOne : Channel :=
  { title := "T1", description := "E1"
    items := [{ title := some "i1", link := some "l1"
                description := some "d1", pubDate := none },
              { title := some "i2", link := some "l2"
                description := some "d2", pubDate := some "bad" }] }

/-- A one-item remote document. -/
def chanThree : Channel :=
  { title := "T3", description := "E3"
    items := [{ title := some "i3", link := some "l3"
                description := some "d3", pubDate := none }] }

/-- An environment whose fetch succeeds for `"u1"` and `"u3"` but fails for
every other link (in particular `"u2"`), with an always-failing date
parser. -/
def envSecondFeedFails : SyncEnv :=
  { fetch := fun s =>
      if s == "u1" then .ok chanOne
      else if s == "u3" then .ok chanThree
      else .error ()
    parseDate := fun _ => none
    now := 100 }

/-- An environment whose fetch always succeeds with the one-item document. -/
def envAllOk : SyncEnv :=
  { fetch := fun _ => .ok chanThree, parseDate := fun _ => none, now := 100 }

/-- A database holding the group `"Tech"` with id 1, as left by a previous
run, observed over a freshly opened connection (`last_insert_rowid` 0). -/
def dbTechExists : DbState :=
  { groups := [{ id := 1, name := "Tech", desc := "tech news" }]
    feeds := [], feed_items := []
    nextGroupId := 2, nextFeedId := 1, nextItemId := 1
    lastInsertRowid := 0 }

/-- A configuration with the group `"Tech"` (updated description) holding one
feed. -/
def cfgTechOneFeed : Config :=
  { confirm_quit := true
    groups := [{ name := "Tech", desc := "updated desc"
                 feeds := [{ name := some "F", desc := some "D", link := "u1" }] }] }

/-- A trivial HTML-parse oracle for closed checks. -/
def parseDomTrivial : String → DomNode := fun _ => DomNode.other

/-- A concrete group used by closed checks. -/
def demoGroup : Group := { id := 1, name := "Tech", desc := "tech news" }

/-- A concrete feed used by closed checks. -/
def demoFeed : Feed :=
  { id := 2, group_id := 1, name := "F1", desc := "D1", url := "u1", updated_at := 7 }

/-- A concrete feed item used by closed checks. -/
def demoItem : FeedItem :=
  { id := 3, feed_id := 2, title := "i1", url := "l1", desc := "d1"
    content := "body", read := false, pub_date := 9 }

/-- A `GroupView` already populated with two groups, selection at 0. -/
def groupViewPopulated : GroupViewState :=
  { GroupView.new with groups := [allFeedsGroup, demoGroup] }

/-- An `ArticleList` populated with one item, selection at 0. -/
def articleListPopulated : ArticleListState :=
  { ArticleList.new with
    feed_items := some [{ demoItem with content := "" }]
    mode := .viewArticles [{ demoItem with content := "" }] }

/-! # Theorems -/

/-- An empty queue ends the drain pass whatever fuel remains. -/
theorem drainQueue_nil (process : AppAction → List AppAction) (n : Nat) :
    drainQueue process n [] = [] := by
  cases n <;> rfl

/-- C4: within one drain pass of the dispatch loop, actions are processed in
enqueue order: with actions A then B in the queue, where processing A
enqueues a follow-up C and processing B and C enqueue nothing, the observed
processing order is A, B, C. -/
theorem drain_pass_fifo (process : AppAction → List AppAction)
    (a b c : AppAction) (n : Nat)
    (ha : process a = [c]) (hb : process b = []) (hc : process c = []) :
    drainQueue process (n + 3) [a, b] = [a, b, c] := by
  simp [drainQueue, ha, hb, hc, drainQueue_nil]

/-- Witness for C4 at a concrete process function and concrete actions. -/
theorem drain_pass_fifo_witness :
    drainQueue
      (fun x => if x = AppAction.quit then [AppAction.tick] else [])
      3 [AppAction.quit, AppAction.render]
      = [AppAction.quit, AppAction.render, AppAction.tick] :=
  drain_pass_fifo _ AppAction.quit AppAction.render AppAction.tick 0
    (by decide) (by decide) (by decide)

/-- C9: every item returned by the three listing operations has an empty
`content` field, whatever content the corresponding row stores. -/
theorem listings_blank_content (db : DbState) (feedId groupId : Int)
    (it : FeedItem)
    (h : it ∈ getFeedItems db ∨ it ∈ getFeedItemsFromFeed db feedId ∨
         it ∈ getFeedItemsFromGroup db groupId) :
    it.content = "" := by
  rcases h with h | h | h
  · simp only [getFeedItems, List.mem_map] at h
    obtain ⟨x, -, rfl⟩ := h
    rfl
  · simp only [getFeedItemsFromFeed, List.mem_map] at h
    obtain ⟨x, -, rfl⟩ := h
    rfl
  · simp only [getFeedItemsFromGroup, List.mem_flatMap, List.mem_map] at h
    obtain ⟨x, -, -, -, rfl⟩ := h
    rfl

/-- Witness for C9 at a concrete database whose stored row has nonempty
content. -/
theorem listings_blank_content_witness :
    ({ demoItem with content := "" } : FeedItem).content = "" :=
  listings_blank_content
    { DbState.empty with feed_items := [demoItem] } 2 1 _
    (Or.inl (by decide))

/-- C7: a failed article extraction sends no `UpdateReader`, leaves the root
state (in particular the mode) unchanged, and leaves the reader's content
and rendered text exactly as they were; only a successful extraction sends
an `UpdateReader` carrying the extracted body. -/
theorem extraction_failure_isolated (extract : String → Except Unit String)
    (parseDom : String → DomNode) (s : AppState) (r : ReaderState)
    (it : FeedItem) (h : extract it.url = .error ()) :
    appApplyRoot extract s (.requestUpdateReader it) = (s, []) ∧
    Reader.update parseDom r (.requestUpdateReader it) = r ∧
    (∀ (extract2 : String → Except Unit String) (body : String),
      extract2 it.url = .ok body →
      appApplyRoot extract2 s (.requestUpdateReader it)
        = (s, [.updateReader body])) := by
  refine ⟨?_, rfl, ?_⟩
  · simp [appApplyRoot, h]
  · intro extract2 body h2
    simp [appApplyRoot, h2]

/-- Witness for C7 at a concrete failing extractor, app state and reader
state. -/
theorem extraction_failure_isolated_witness :
    appApplyRoot (fun _ => .error ())
        { mode := .groupView, should_quit := false, should_suspend := false
          last_tick_key_events := [], db := DbState.empty }
        (.requestUpdateReader demoItem)
      = ({ mode := .groupView, should_quit := false, should_suspend := false
           last_tick_key_events := [], db := DbState.empty }, []) ∧
    Reader.update parseDomTrivial Reader.new (.requestUpdateReader demoItem)
      = Reader.new ∧
    (∀ (extract2 : String → Except Unit String) (body : String),
      extract2 demoItem.url = .ok body →
      appApplyRoot extract2
          { mode := .groupView, should_quit := false, should_suspend := false
            last_tick_key_events := [], db := DbState.empty }
          (.requestUpdateReader demoItem)
        = ({ mode := .groupView, should_quit := false, should_suspend := false
             last_tick_key_events := [], db := DbState.empty },
           [.updateReader body])) :=
  extraction_failure_isolated (fun _ => .error ()) parseDomTrivial _ _ demoItem rfl

/-- Mapping an idempotent per-row update twice equals mapping it once. -/
theorem list_map_upd_idem {α : Type} (f : α → α) (h : ∀ a, f (f a) = f a)
    (l : List α) : (l.map f).map f = l.map f := by
  rw [List.map_map]
  exact List.map_congr_left (fun a _ => h a)

/-- Mapping a per-row update that fixes every element is the identity. -/
theorem list_map_noop {α : Type} (f : α → α) (l : List α)
    (h : ∀ a ∈ l, f a = a) : l.map f = l :=
  (List.map_congr_left h).trans (List.map_id l)

/-- The conflict path of an upsert: updating in place the rows matching the
key leaves exactly one matching row when at most one matched before and at
least one did. -/
theorem countP_map_upd_eq_one {α : Type} (l : List α) (p : α → Bool)
    (upd : α → α) (hupd : ∀ a, p (upd a) = p a)
    (hany : l.any p = true) (h1 : l.countP p ≤ 1) :
    (l.map upd).countP p = 1 := by
  have hm : (l.map upd).countP p = l.countP p := by
    rw [List.countP_map]
    exact List.countP_congr (fun x _ => by simp [Function.comp, hupd])
  have hpos : 0 < l.countP p := List.countP_pos_iff.mpr (by simpa using hany)
  omega

/-- The insert path of an upsert: appending the fresh row to a table with no
matching row leaves exactly one matching row. -/
theorem countP_append_new_eq_one {α : Type} (l : List α) (p : α → Bool)
    (newRow : α) (hnew : p newRow = true) (hany : l.any p = false) :
    (l ++ [newRow]).countP p = 1 := by
  have h0 : l.countP p = 0 := List.countP_eq_zero.mpr (by simpa using hany)
  rw [List.countP_append, List.countP_singleton]
  simp [h0, hnew]

/-- C3: upserting a Group, Feed or FeedItem whose unique key occurs at most
once leaves exactly one row with that key; on the conflict path the existing
row keeps its id with only the merge fields rewritten (for a Feed: name,
desc, updated_at); and applying the same upsert twice with identical fields
leaves the whole storage state as after applying it once. -/
theorem upsert_unique_merge_idempotent
    (db : DbState) (g : Group) (f : Feed) (it : FeedItem)
    (hg : db.groups.countP (fun r => r.name == g.name) ≤ 1)
    (hf : db.feeds.countP (fun r => r.url == f.url) ≤ 1)
    (hi : db.feed_items.countP (fun r => r.url == it.url) ≤ 1) :
    ((upsertGroup g db).2.groups.countP (fun r => r.name == g.name) = 1) ∧
    ((upsertFeed f db).2.feeds.countP (fun r => r.url == f.url) = 1) ∧
    ((upsertFeedItem it db).2.feed_items.countP (fun r => r.url == it.url) = 1) ∧
    (∀ r ∈ db.groups, r.name = g.name →
      { r with desc := g.desc } ∈ (upsertGroup g db).2.groups) ∧
    (∀ r ∈ db.feeds, r.url = f.url →
      { r with name := f.name, desc := f.desc, updated_at := f.updated_at }
        ∈ (upsertFeed f db).2.feeds) ∧
    (∀ r ∈ db.feed_items, r.url = it.url →
      { r with title := it.title, desc := it.desc, content := it.content
               read := it.read, pub_date := it.pub_date }
        ∈ (upsertFeedItem it db).2.feed_items) ∧
    ((upsertGroup g (upsertGroup g db).2).2 = (upsertGroup g db).2) ∧
    ((upsertFeed f (upsertFeed f db).2).2 = (upsertFeed f db).2) ∧
    ((upsertFeedItem it (upsertFeedItem it db).2).2 = (upsertFeedItem it db).2) := by
  refine ⟨?_, ?_, ?_, ?_, ?_, ?_, ?_, ?_, ?_⟩
  · by_cases hany : db.groups.any (fun r => r.name == g.name) = true
    · simp only [upsertGroup, hany, if_true]
      exact countP_map_upd_eq_one _ _ _
        (fun a => by by_cases h : (a.name == g.name) = true <;> simp [h])
        hany hg
    · have hany' : db.groups.any (fun r => r.name == g.name) = false := by
        simpa using hany
      simp only [upsertGroup, hany', Bool.false_eq_true, if_false]
      exact countP_append_new_eq_one _ _ _ (by simp) hany'
  · by_cases hany : db.feeds.any (fun r => r.url == f.url) = true
    · simp only [upsertFeed, hany, if_true]
      exact countP_map_upd_eq_one _ _ _
        (fun a => by by_cases h : (a.url == f.url) = true <;> simp [h])
        hany hf
    · have hany' : db.feeds.any (fun r => r.url == f.url) = false := by
        simpa using hany
      simp only [upsertFeed, hany', Bool.false_eq_true, if_false]
      exact countP_append_new_eq_one _ _ _ (by simp) hany'
  · by_cases hany : db.feed_items.any (fun r => r.url == it.url) = true
    · simp only [upsertFeedItem, hany, if_true]
      exact countP_map_upd_eq_one _ _ _
        (fun a => by by_cases h : (a.url == it.url) = true <;> simp [h])
        hany hi
    · have hany' : db.feed_items.any (fun r => r.url == it.url) = false := by
        simpa using hany
      simp only [upsertFeedItem, hany', Bool.false_eq_true, if_false]
      exact countP_append_new_eq_one _ _ _ (by simp) hany'
  · intro r hr hname
    have hany : db.groups.any (fun r => r.name == g.name) = true :=
      List.any_eq_true.mpr ⟨r, hr, by simp [hname]⟩
    simp only [upsertGroup, hany, if_true]
    have := List.mem_map_of_mem
      (fun r => if r.name == g.name then { r with desc := g.desc } else r) hr
    simpa [hname] using this
  · intro r hr hurl
    have hany : db.feeds.any (fun r => r.url == f.url) = true :=
      List.any_eq_true.mpr ⟨r, hr, by simp [hurl]⟩
    simp only [upsertFeed, hany, if_true]
    have := List.mem_map_of_mem
      (fun r => if r.url == f.url then
        { r with name := f.name, desc := f.desc, updated_at := f.updated_at }
       else r) hr
    simpa [hurl] using this
  · intro r hr hurl
    have hany : db.feed_items.any (fun r => r.url == it.url) = true :=
      List.any_eq_true.mpr ⟨r, hr, by simp [hurl]⟩
    simp only [upsertFeedItem, hany, if_true]
    have := List.mem_map_of_mem
      (fun r => if r.url == it.url then
        { r with title := it.title, desc := it.desc, content := it.content
                 read := it.read, pub_date := it.pub_date }
       else r) hr
    simpa [hurl] using this
  · by_cases hany : db.groups.any (fun r => r.name == g.name) = true
    · simp only [upsertGroup, hany, if_true]
      have hany2 : (db.groups.map (fun r =>
          if r.name == g.name then { r with desc := g.desc } else r)).any
            (fun r => r.name == g.name) = true := by
        obtain ⟨x, hx, hpx⟩ := List.any_eq_true.mp hany
        refine List.any_eq_true.mpr ⟨_, List.mem_map_of_mem _ hx, ?_⟩
        simp [hpx]
      simp only [hany2, if_true]
      congr 1
      exact list_map_upd_idem _
        (fun a => by by_cases h : (a.name == g.name) = true <;> simp [h]) _
    · have hany' : db.groups.any (fun r => r.name == g.name) = false := by
        simpa using hany
      have hnone : ∀ r ∈ db.groups, (r.name == g.name) = false := by
        simpa using List.any_eq_false.mp hany'
      simp only [upsertGroup, hany', Bool.false_eq_true, if_false]
      have hany2 : ((db.groups ++ [{ g with id := db.nextGroupId }]).any
          (fun r => r.name == g.name)) = true :=
        List.any_eq_true.mpr
          ⟨{ g with id := db.nextGroupId }, by simp, by simp⟩
      simp only [hany2, if_true]
      congr 1
      rw [List.map_append]
      have h1 : db.groups.map (fun r =>
          if r.name == g.name then { r with desc := g.desc } else r) = db.groups :=
        list_map_noop _ _ (fun a ha => by simp [hnone a ha])
      have h2 : [{ g with id := db.nextGroupId }].map (fun r =>
          if r.name == g.name then { r with desc := g.desc } else r)
          = [{ g with id := db.nextGroupId }] := by simp
      rw [h1, h2]
  · by_cases hany : db.feeds.any (fun r => r.url == f.url) = true
    · simp only [upsertFeed, hany, if_true]
      have hany2 : (db.feeds.map (fun r =>
          if r.url == f.url then
            { r with name := f.name, desc := f.desc, updated_at := f.updated_at }
          else r)).any (fun r => r.url == f.url) = true := by
        obtain ⟨x, hx, hpx⟩ := List.any_eq_true.mp hany
        refine List.any_eq_true.mpr ⟨_, List.mem_map_of_mem _ hx, ?_⟩
        simp [hpx]
      simp only [hany2, if_true]
      congr 1
      exact list_map_upd_idem _
        (fun a => by by_cases h : (a.url == f.url) = true <;> simp [h]) _
    · have hany' : db.feeds.any (fun r => r.url == f.url) = false := by
        simpa using hany
      have hnone : ∀ r ∈ db.feeds, (r.url == f.url) = false := by
        simpa using List.any_eq_false.mp hany'
      simp only [upsertFeed, hany', Bool.false_eq_true, if_false]
      have hany2 : ((db.feeds ++ [{ f with id := db.nextFeedId }]).any
          (fun r => r.url == f.url)) = true :=
        List.any_eq_true.mpr
          ⟨{ f with id := db.nextFeedId }, by simp, by simp⟩
      simp only [hany2, if_true]
      congr 1
      rw [List.map_append]
      have h1 : db.feeds.map (fun r =>
          if r.url == f.url then
            { r with name := f.name, desc := f.desc, updated_at := f.updated_at }
          else r) = db.feeds :=
        list_map_noop _ _ (fun a ha => by simp [hnone a ha])
      have h2 : [{ f with id := db.nextFeedId }].map (fun r =>
          if r.url == f.url then
            { r with name := f.name, desc := f.desc, updated_at := f.updated_at }
          else r) = [{ f with id := db.nextFeedId }] := by simp
      rw [h1, h2]
  · by_cases hany : db.feed_items.any (fun r => r.url == it.url) = true
    · simp only [upsertFeedItem, hany, if_true]
      have hany2 : (db.feed_items.map (fun r =>
          if r.url == it.url then
            { r with title := it.title, desc := it.desc, content := it.content
                     read := it.read, pub_date := it.pub_date }
          else r)).any (fun r => r.url == it.url) = true := by
        obtain ⟨x, hx, hpx⟩ := List.any_eq_true.mp hany
        refine List.any_eq_true.mpr ⟨_, List.mem_map_of_mem _ hx, ?_⟩
        simp [hpx]
      simp only [hany2, if_true]
      congr 1
      exact list_map_upd_idem _
        (fun a => by by_cases h : (a.url == it.url) = true <;> simp [h]) _
    · have hany' : db.feed_items.any (fun r => r.url == it.url) = false := by
        simpa using hany
      have hnone : ∀ r ∈ db.feed_items, (r.url == it.url) = false := by
        simpa using List.any_eq_false.mp hany'
      simp only [upsertFeedItem, hany', Bool.false_eq_true, if_false]
      have hany2 : ((db.feed_items ++ [{ it with id := db.nextItemId }]).any
          (fun r => r.url == it.url)) = true :=
        List.any_eq_true.mpr
          ⟨{ it with id := db.nextItemId }, by simp, by simp⟩
      simp only [hany2, if_true]
      congr 1
      rw [List.map_append]
      have h1 : db.feed_items.map (fun r =>
          if r.url == it.url then
            { r with title := it.title, desc := it.desc, content := it.content
                     read := it.read, pub_date := it.pub_date }
          else r) = db.feed_items :=
        list_map_noop _ _ (fun a ha => by simp [hnone a ha])
      have h2 : [{ it with id := db.nextItemId }].map (fun r =>
          if r.url == it.url then
            { r with title := it.title, desc := it.desc, content := it.content
                     read := it.read, pub_date := it.pub_date }
          else r) = [{ it with id := db.nextItemId }] := by simp
      rw [h1, h2]

/-- Witness for C3 at a concrete one-row-per-table database whose keys all
conflict with the upah — upserted values. -/
theorem upsert_unique_merge_idempotent_witness :
    ((upsertGroup { demoGroup with desc := "new" }
        { DbState.empty with groups := [demoGroup] }).2.groups.countP
      (fun r => r.name == ({ demoGroup with desc := "new" } : Group).name) = 1) :=
  (upsert_unique_merge_idempotent
    { DbState.empty with groups := [demoGroup] }
    { demoGroup with desc := "new" } demoFeed demoItem
    (by decide) (by decide) (by decide)).1

/-- `upsert_group` preserves positivity of persisted ids and counters. -/
theorem upsertGroup_dbInv (g : Group) (db : DbState) (h : DbInv db) :
    DbInv (upsertGroup g db).2 := by
  obtain ⟨hg, hf, hng, hnf⟩ := h
  unfold upsertGroup
  split
  · refine ⟨?_, hf, hng, hnf⟩
    intro x hx
    obtain ⟨y, hy, rfl⟩ := List.mem_map.mp hx
    have := hg y hy
    split <;> simpa
  · refine ⟨?_, hf, by dsimp only; omega, hnf⟩
    intro x hx
    rcases List.mem_append.mp hx with hmem | hmem
    · exact hg x hmem
    · have : x = { g with id := db.nextGroupId } := by simpa using hmem
      subst this
      simpa using hng

/-- `upsert_feed` preserves positivity of persisted ids and counters. -/
theorem upsertFeed_dbInv (f : Feed) (db : DbState) (h : DbInv db) :
    DbInv (upsertFeed f db).2 := by
  obtain ⟨hg, hf, hng, hnf⟩ := h
  unfold upsertFeed
  split
  · refine ⟨hg, ?_, hng, hnf⟩
    intro x hx
    obtain ⟨y, hy, rfl⟩ := List.mem_map.mp hx
    have := hf y hy
    split <;> simpa
  · refine ⟨hg, ?_, hng, by dsimp only; omega⟩
    intro x hx
    rcases List.mem_append.mp hx with hmem | hmem
    · exact hf x hmem
    · have : x = { f with id := db.nextFeedId } := by simpa using hmem
      subst this
      simpa using hnf

/-- `upsert_feed_item` touches neither the group nor the feed table. -/
theorem upsertFeedItem_dbInv (it : FeedItem) (db : DbState) (h : DbInv db) :
    DbInv (upsertFeedItem it db).2 := by
  obtain ⟨hg, hf, hng, hnf⟩ := h
  unfold upsertFeedItem
  split <;> exact ⟨hg, hf, hng, hnf⟩

/-- The item loop preserves positivity of persisted ids and counters. -/
theorem upsertChannelItems_dbInv (env : SyncEnv) (fid : Int)
    (items : List RssItem) : ∀ db, DbInv db →
    DbInv (upsertChannelItems env fid items db) := by
  induction items with
  | nil => intro db h; exact h
  | cons a l ih =>
    intro db h
    simp only [upsertChannelItems, List.foldl_cons] at ih ⊢
    exact ih _ (upsertFeedItem_dbInv _ _ h)

/-- One feed's processing preserves positivity of persisted ids and
counters. -/
theorem refreshFeed_dbInv (env : SyncEnv) (gid : Int) (fc : FeedConfig)
    (db db' : DbState) (h : DbInv db)
    (hok : refreshFeed env gid fc db = .ok db') : DbInv db' := by
  unfold refreshFeed at hok
  cases henv : env.fetch fc.link with
  | error e => rw [henv] at hok; simp at hok
  | ok ch =>
    rw [henv] at hok
    simp only [Except.ok.injEq] at hok
    subst hok
    exact upsertChannelItems_dbInv _ _ _ _ (upsertFeed_dbInv _ _ h)

/-- The feed loop preserves positivity of persisted ids and counters,
whether or not it aborts. -/
theorem refreshGroupFeeds_dbInv (env : SyncEnv) (gid : Int)
    (fcs : List FeedConfig) : ∀ db, DbInv db →
    DbInv (refreshGroupFeeds env gid fcs db).1 := by
  induction fcs with
  | nil => intro db h; exact h
  | cons fc rest ih =>
    intro db h
    simp only [refreshGroupFeeds]
    cases hr : refreshFeed env gid fc db with
    | error e => simpa using h
    | ok db2 => simpa using ih db2 (refreshFeed_dbInv env gid fc db db2 h hr)

/-- The group loop preserves positivity of persisted ids and counters. -/
theorem refreshGroups_dbInv (env : SyncEnv) (gcs : List GroupConfig) :
    ∀ db, DbInv db → DbInv (refreshGroups env gcs db).1 := by
  induction gcs with
  | nil => intro db h; exact h
  | cons gc rest ih =>
    intro db h
    simp only [refreshGroups]
    have h1 : DbInv (refreshGroupFeeds env
        (upsertGroup { id := 0, name := gc.name, desc := gc.desc } db).1 gc.feeds
        (upsertGroup { id := 0, name := gc.name, desc := gc.desc } db).2).1 :=
      refreshGroupFeeds_dbInv env _ gc.feeds _ (upsertGroup_dbInv _ _ h)
    cases hr : (refreshGroupFeeds env
        (upsertGroup { id := 0, name := gc.name, desc := gc.desc } db).1 gc.feeds
        (upsertGroup { id := 0, name := gc.name, desc := gc.desc } db).2).2 with
    | error e => simpa [hr] using h1
    | ok u => cases u; simpa [hr] using ih _ h1

/-- C6: the group listing is the synthetic "All Feeds" group (id −1)
followed by exactly the persisted groups in insertion order, and the
per-group feed listing is a synthetic id −1 feed followed by exactly that
group's persisted feeds; and on any storage state whose persisted ids are
positive, synchronization never writes a row with the synthetic id −1. -/
theorem synthetic_aggregates_never_persisted
    (db : DbState) (gid : Int) (now : Nat) (env : SyncEnv) (cfg : Config)
    (hinv : DbInv db) :
    getGroups db = allFeedsGroup :: db.groups ∧
    allFeedsGroup.id = -1 ∧
    allFeedsGroup.name = "All Feeds" ∧
    getFeedsFromGroup db gid now
      = allFeedsFeed gid now :: db.feeds.filter (fun f => f.group_id == gid) ∧
    (allFeedsFeed gid now).id = -1 ∧
    (∀ g ∈ (refreshFeeds env cfg db).1.groups, g.id ≠ allFeedsGroup.id) ∧
    (∀ f ∈ (refreshFeeds env cfg db).1.feeds, f.id ≠ (-1 : Int)) := by
  have hpost : DbInv (refreshFeeds env cfg db).1 :=
    refreshGroups_dbInv env cfg.groups db hinv
  refine ⟨rfl, rfl, rfl, rfl, rfl, ?_, ?_⟩
  · intro g hgmem
    have h1 : 1 ≤ g.id := hpost.1 g hgmem
    show g.id ≠ -1
    omega
  · intro f hfmem
    have h1 : 1 ≤ f.id := hpost.2.1 f hfmem
    omega

/-- Witness for C6 at the freshly initialised database. -/
theorem synthetic_aggregates_never_persisted_witness :
    getGroups DbState.empty = allFeedsGroup :: DbState.empty.groups :=
  (synthetic_aggregates_never_persisted DbState.empty 5 7 envAllOk
    cfgThreeFeeds ⟨by simp [DbState.empty], by simp [DbState.empty],
      by decide, by decide⟩).1

/-- C8: a tab-content component constructed with self-index `i` ignores
update actions addressed to `j ≠ i` — its stored state is left exactly
unchanged — while a component whose self-index equals the target applies the
payload. -/
theorem indexed_updates_frame (parseDom : String → DomNode) (j : Nat)
    (av : ArticleViewState) (ar : ArticleReaderState) (fv : FeedViewState)
    (items : List FeedItem) (feeds : List Feed) (content : String)
    (hav : av.idx ≠ j) (har : ar.idx ≠ j) (hfv : fv.idx ≠ j)
    (av' : ArticleViewState) (ar' : ArticleReaderState) (fv' : FeedViewState)
    (hav' : av'.idx = j) (har' : ar'.idx = j) (hfv' : fv'.idx = j) :
    ArticleView.update parseDom av (.updateArticleView j items) = av ∧
    ArticleReader.update parseDom ar (.updateReader j content) = ar ∧
    FeedView.update fv (.updateFeedView j feeds) = fv ∧
    (ArticleView.update parseDom av' (.updateArticleView j items)).article_list.feed_items
      = some items ∧
    (ArticleReader.update parseDom ar' (.updateReader j content)).content
      = some content ∧
    (FeedView.update fv' (.updateFeedView j feeds)).feeds = feeds := by
  refine ⟨?_, ?_, ?_, ?_, ?_, ?_⟩
  · simp [ArticleView.update, ArticleList.update, ArticleReader.update, hav]
  · simp [ArticleReader.update, har]
  · simp [FeedView.update, hfv]
  · simp [ArticleView.update, ArticleList.update, ArticleReader.update, hav',
      ArticleList.setFeedItems]
  · simp [ArticleReader.update, har']
  · simp [FeedView.update, hfv']

/-- Witness for C8 at self-index 0 components and target index 1. -/
theorem indexed_updates_frame_witness :
    ArticleView.update parseDomTrivial (ArticleView.new 0)
        (.updateArticleView 1 [demoItem]) = ArticleView.new 0 ∧
    ArticleReader.update parseDomTrivial (ArticleReader.new 0)
        (.updateReader 1 "body") = ArticleReader.new 0 ∧
    FeedView.update (FeedView.new 0 demoGroup)
        (.updateFeedView 1 [demoFeed]) = FeedView.new 0 demoGroup ∧
    (ArticleView.update parseDomTrivial (ArticleView.new 1)
        (.updateArticleView 1 [demoItem])).article_list.feed_items
      = some [demoItem] ∧
    (ArticleReader.update parseDomTrivial (ArticleReader.new 1)
        (.updateReader 1 "body")).content = some "body" ∧
    (FeedView.update (FeedView.new 1 demoGroup)
        (.updateFeedView 1 [demoFeed])).feeds = [demoFeed] :=
  indexed_updates_frame parseDomTrivial 1
    (ArticleView.new 0) (ArticleReader.new 0) (FeedView.new 0 demoGroup)
    [demoItem] [demoFeed] "body"
    (by decide) (by decide) (by decide)
    (ArticleView.new 1) (ArticleReader.new 1) (FeedView.new 1 demoGroup)
    rfl rfl rfl

/-- C5 (failing part): evaluating `TabViewer::update` on each new-tab action
from the initial one-tab state.  Every arm appends the component, selects it
(index `tabs.len() - 1 = 1`) and sends `ChangeTab 1`; the three
FeedView/All/Feed arms return a refresh request carrying that index 1, but
the `NewTabArticleViewGroup` arm returns a request carrying
`tabs.len() = 2` — an index at which no tab exists. -/
theorem new_tab_refresh_index (g : Group) (f : Feed) :
    (let r := TabViewer.update parseDomTrivial TabViewer.new (.newTabFeedView g)
     r.1.tabs.length = 2 ∧ r.1.selected_tab = 1 ∧ r.1.tab_bar.selected_tab = 1 ∧
       r.2.1 = [.changeTab 1] ∧ r.2.2 = some (.requestUpdateFeedView 1 g)) ∧
    (let r := TabViewer.update parseDomTrivial TabViewer.new .newTabArticleViewAll
     r.1.tabs.length = 2 ∧ r.1.selected_tab = 1 ∧
       r.2.2 = some (.requestUpdateArticleViewAll 1)) ∧
    (let r := TabViewer.update parseDomTrivial TabViewer.new (.newTabArticleViewFeed f)
     r.1.tabs.length = 2 ∧ r.1.selected_tab = 1 ∧
       r.2.2 = some (.requestUpdateArticleViewFeed 1 f)) ∧
    (let r := TabViewer.update parseDomTrivial TabViewer.new (.newTabArticleViewGroup g)
     r.1.tabs.length = 2 ∧ r.1.selected_tab = 1 ∧
       r.2.2 = some (.requestUpdateArticleViewGroup 2 g)) := by
  refine ⟨?_, ?_, ?_, ?_⟩ <;>
    simp [TabViewer.update, TabViewer.new, TabViewer.addNewTab, TabBar.addTab,
      TabBar.select, TabComponent.update, GroupView.update, GroupView.new]

/-- C2 (failing input): synchronizing the configuration of group `"Tech"`
over a database where `"Tech"` already exists with id 1, on a freshly opened
connection.  The group upsert takes the conflict path, so the id it returns
is the connection's `last_insert_rowid` register — 0 — and the feed row is
written with `group_id = 0`, which is not the id of any group row (the
existing group keeps id 1). -/
theorem stale_group_id_on_conflict :
    (let r := refreshFeeds envSecondFeedFails cfgTechOneFeed dbTechExists
     r.2 = .ok () ∧
       r.1.groups = [{ id := 1, name := "Tech", desc := "updated desc" }] ∧
       r.1.feeds.map (fun f => (f.url, f.group_id)) = [("u1", 0)] ∧
       ∀ f ∈ r.1.feeds, ∀ g ∈ r.1.groups, f.group_id ≠ g.id) := by
  decide

/-- When every feed of a group fetches and parses successfully, the group's
feed loop returns `Ok`. -/
theorem refreshGroupFeeds_all_ok (env : SyncEnv) (gid : Int)
    (fcs : List FeedConfig) :
    ∀ db, (∀ fc ∈ fcs, ∃ ch, env.fetch fc.link = .ok ch) →
    (refreshGroupFeeds env gid fcs db).2 = .ok () := by
  induction fcs with
  | nil => intro db _; rfl
  | cons fc rest ih =>
    intro db hall
    obtain ⟨ch, hch⟩ := hall fc (by simp)
    simp only [refreshGroupFeeds, refreshFeed, hch]
    exact ih _ (fun x hx => hall x (by simp [hx]))

/-- When every configured feed fetches and parses successfully, the group
loop returns `Ok`. -/
theorem refreshGroups_all_ok (env : SyncEnv) (gcs : List GroupConfig) :
    ∀ db, (∀ gc ∈ gcs, ∀ fc ∈ gc.feeds, ∃ ch, env.fetch fc.link = .ok ch) →
    (refreshGroups env gcs db).2 = .ok () := by
  induction gcs with
  | nil => intro db _; rfl
  | cons gc rest ih =>
    intro db hall
    simp only [refreshGroups]
    have hfeeds : (refreshGroupFeeds env
        (upsertGroup { id := 0, name := gc.name, desc := gc.desc } db).1 gc.feeds
        (upsertGroup { id := 0, name := gc.name, desc := gc.desc } db).2).2
          = .ok () :=
      refreshGroupFeeds_all_ok env _ gc.feeds _ (hall gc (by simp))
    simp only [hfeeds]
    exact ih _ (fun x hx => hall x (by simp [hx]))

/-- C1 (amended): `refresh_feeds` returns success when every configured
feed's fetch and parse succeed; but a fetch or parse failure of one feed
aborts the whole call — with a group of three feeds whose second fetch
fails, followed by any further groups, the result is exactly the state
reached after processing the first feed alone, paired with the error: the
failing feed, its later siblings and all later groups are never
processed. -/
theorem refresh_fetch_failure_aborts (env : SyncEnv) (cq : Bool)
    (gname gdesc : String) (f1 f2 f3 : FeedConfig)
    (rest : List GroupConfig) (db : DbState) (c1 : Channel)
    (h1 : env.fetch f1.link = .ok c1) (h2 : env.fetch f2.link = .error ()) :
    refreshFeeds env ⟨cq, ⟨gname, gdesc, [f1, f2, f3]⟩ :: rest⟩ db
      = ((refreshFeeds env ⟨cq, [⟨gname, gdesc, [f1]⟩]⟩ db).1,
         .error ()) ∧
    (∀ (cfg : Config) (db' : DbState),
      (∀ gc ∈ cfg.groups, ∀ fc ∈ gc.feeds, ∃ ch, env.fetch fc.link = .ok ch) →
      (refreshFeeds env cfg db').2 = .ok ()) := by
  constructor
  · simp only [refreshFeeds, refreshGroups, refreshGroupFeeds, refreshFeed,
      h1, h2]
  · intro cfg db' hall
    exact refreshGroups_all_ok env cfg.groups db' hall

/-- Witness for C1 (amended) at the concrete second-feed-fails environment,
with a nonempty trailing group whose feed would fetch successfully. -/
theorem refresh_fetch_failure_aborts_witness :
    refreshFeeds envSecondFeedFails
        ⟨true, ⟨"Tech", "tech news",
          [{ name := some "F1", desc := some "D1", link := "u1" },
           { name := some "F2", desc := some "D2", link := "u2" },
           { name := some "F3", desc := some "D3", link := "u3" }]⟩ ::
          [⟨"World", "world news",
            [{ name := none, desc := none, link := "u3" }]⟩]⟩
        DbState.empty
      = ((refreshFeeds envSecondFeedFails
          ⟨true, [⟨"Tech", "tech news",
            [{ name := some "F1", desc := some "D1", link := "u1" }]⟩]⟩
          DbState.empty).1, .error ()) :=
  (refresh_fetch_failure_aborts envSecondFeedFails true "Tech" "tech news"
    { name := some "F1", desc := some "D1", link := "u1" }
    { name := some "F2", desc := some "D2", link := "u2" }
    { name := some "F3", desc := some "D3", link := "u3" }
    [⟨"World", "world news", [{ name := none, desc := none, link := "u3" }]⟩]
    DbState.empty chanOne (by decide) (by decide)).1

/-- C1 (counterexample): with three configured feeds where only the second
fetch fails, `refresh_feeds` does not complete successfully — it returns the
error — and the third feed (whose fetch would succeed) is never upserted;
only the first feed and its items reach storage. -/
theorem refresh_sibling_feeds_lost_on_failure :
    (let r := refreshFeeds envSecondFeedFails cfgThreeFeeds DbState.empty
     r.2 = .error () ∧
       r.1.feeds.map Feed.url = ["u1"] ∧
       r.1.feed_items.map FeedItem.url = ["l1", "l2"] ∧
       envSecondFeedFails.fetch "u3" = .ok chanThree) := by
  decide

/-- C10 (counterexample): on the initial `GroupView` state — reachable at
the public interface, before the first `Refresh` has populated the list —
the j/Down key handler panics (the next-index computation takes a remainder
by the empty list's length, zero). -/
theorem group_view_empty_list_panics :
    GroupView.handleKeyEvents GroupView.new (.char 'j') = none := by
  decide

/-- C10 (amended): the list-navigation handlers of the group view and the
article list return without panicking for every key or mouse event, provided
the displayed list is nonempty and the stored selection is a valid index
(for the article list: whenever it has been populated); on an empty
displayed list the next-index computations are undefined. -/
theorem navigation_safe_on_nonempty :
    (∀ (s : GroupViewState) (key : KeyCode), GroupView.keySafe s →
      (GroupView.handleKeyEvents s key).isSome) ∧
    (∀ (s : GroupViewState) (m : MouseKind), GroupView.keySafe s →
      (GroupView.handleMouseEvents s m).isSome) ∧
    (∀ (s : ArticleListState) (key : KeyCode), ArticleList.keySafe s →
      (ArticleList.handleKeyEvents s key).isSome) ∧
    (∀ (s : ArticleListState) (m : MouseKind), ArticleList.keySafe s →
      (ArticleList.handleMouseEvents s m).isSome) := by
  refine ⟨?_, ?_, ?_, ?_⟩
  · rintro s key ⟨hne, i, hsel, hlt⟩
    have hlen : ¬s.groups.length = 0 := by
      simpa [List.length_eq_zero] using hne
    unfold GroupView.handleKeyEvents
    split
    · simp only [hsel]
      obtain ⟨g, hg⟩ : ∃ g, s.groups.get? i = some g :=
        ⟨_, List.get?_eq_get hlt⟩
      split <;> [skip; split] <;> [skip; skip; split]
      all_goals simp_all [hg]
      all_goals split <;> simp
    · simp
  · rintro s m ⟨hne, i, hsel, hlt⟩
    have hlen : ¬s.groups.length = 0 := by
      simpa [List.length_eq_zero] using hne
    unfold GroupView.handleMouseEvents
    split <;> [skip; split]
    all_goals simp_all
    all_goals split <;> simp
  · rintro s key hsafe
    unfold ArticleList.handleKeyEvents
    split
    · split
      · simp
      · rename_i l hitems
        obtain ⟨hne, i, hsel, hlt⟩ := hsafe l hitems
        have hlen : ¬l.length = 0 := by
          simpa [List.length_eq_zero] using hne
        simp only [hsel]
        obtain ⟨item, hitem⟩ : ∃ x, l.get? i = some x :=
          ⟨_, List.get?_eq_get hlt⟩
        split <;> [skip; split] <;> [skip; skip; split]
        all_goals simp_all [hitem]
        all_goals split <;> simp
    · simp
  · rintro s m hsafe
    unfold ArticleList.handleMouseEvents
    split
    · split
      · split
        · simp
        · rename_i l hitems
          obtain ⟨hne, i, hsel, hlt⟩ := hsafe l hitems
          have hlen : ¬l.length = 0 := by
            simpa [List.length_eq_zero] using hne
          split <;> [skip; split]
          all_goals simp_all
          all_goals split <;> simp
      · simp
    · simp

/-- Witness for C10 (amended) at a populated `GroupView` and the j/Down
key. -/
theorem navigation_safe_on_nonempty_witness :
    (GroupView.handleKeyEvents groupViewPopulated (.char 'j')).isSome :=
  navigation_safe_on_nonempty.1 groupViewPopulated (.char 'j')
    ⟨by decide, 0, rfl, by decide⟩

end Nuuslees
